import Mathlib

/-!
Verification of the task-board service (boards → lists → cards) ordering,
move and authorization core.  The Python sources under `app/` are embedded
shallowly: SQLAlchemy rows become Lean structures, the session plus the
table contents become an explicit `DB` value threaded through every
operation, and each FastAPI endpoint becomes a total function returning
`Except Herr`, where `Herr` mirrors the `HTTPException` status code and
detail string raised by the endpoint.  The database clock (`func.now()`)
is modelled by a `now : Nat` field on `DB`; columns declared with
`onupdate=func.now()` are refreshed to `db.now` on every committed update.
-/

namespace TaskBoard

/-- Card priority levels (`PriorityEnum` in app/models/card.py). -/
inductive PriorityEnum where
  | low
  | medium
  | high
deriving DecidableEq, Repr

/-- A row of the `users` table (app/models/user.py). -/
structure User where
  id : Nat
  email : String
  username : String
  hashed_password : String
  full_name : Option String
  is_active : Bool
  is_superuser : Bool
  created_at : Nat
  updated_at : Nat
deriving DecidableEq, Repr

/-- A row of the `boards` table (app/models/board.py). -/
structure Board where
  id : Nat
  title : String
  description : Option String
  owner_id : Nat
  created_at : Nat
  updated_at : Nat
deriving DecidableEq, Repr

/-- A row of the `lists` table (app/models/list.py); named `TaskList`
because `List` is taken by the Lean prelude. -/
structure TaskList where
  id : Nat
  title : String
  position : Int
  board_id : Nat
  created_at : Nat
  updated_at : Nat
deriving DecidableEq, Repr

/-- A row of the `cards` table (app/models/card.py). -/
structure Card where
  id : Nat
  title : String
  description : Option String
  position : Int
  list_id : Nat
  assigned_to_id : Option Nat
  due_date : Option Nat
  priority : Option PriorityEnum
  created_at : Nat
  updated_at : Nat
deriving DecidableEq, Repr

/-- The persistent store: the four tables in insertion order, plus the
database clock used for the `onupdate=func.now()` timestamp columns. -/
structure DB where
  users : List User
  boards : List Board
  lists : List TaskList
  cards : List Card
  now : Nat
deriving DecidableEq, Repr

/-- Modelled from the spec: `CRUDBase.get` (app/crud/base.py is not among
the sources; only its subclasses are) fetches the entity with the given
primary key, `None` when absent. -/
def DB.getUser (db : DB) (i : Nat) : Option User :=
  db.users.find? (fun u => u.id == i)

/-- Modelled from the spec: `CRUDBase.get` for the `boards` table. -/
def DB.getBoard (db : DB) (i : Nat) : Option Board :=
  db.boards.find? (fun b => b.id == i)

/-- Modelled from the spec: `CRUDBase.get` for the `lists` table. -/
def DB.getList (db : DB) (i : Nat) : Option TaskList :=
  db.lists.find? (fun l => l.id == i)

/-- Modelled from the spec: `CRUDBase.get` for the `cards` table. -/
def DB.getCard (db : DB) (i : Nat) : Option Card :=
  db.cards.find? (fun c => c.id == i)

/-- Commit an updated card row: every stored row with the same primary key
takes the new value (`db.add` of a mutated object followed by
`db.commit`). -/
def DB.putCard (db : DB) (c2 : Card) : DB :=
  { db with cards := db.cards.map (fun x => if x.id = c2.id then c2 else x) }

/-- Embeds `CRUDCard.move_to_list` (app/crud/card.py): assign `list_id` and
`position` on the in-memory row, then commit once; the model column
`updated_at` is refreshed by its `onupdate=func.now()` default
(app/models/card.py). -/
def move_to_list (db : DB) (c : Card) (listId : Nat) (pos : Int) : Card × DB :=
  let c2 : Card := { c with list_id := listId, position := pos, updated_at := db.now }
  (c2, db.putCard c2)

/-- The states a reader of the store can observe around `move_to_list`:
the state before its single commit and the state after it. -/
def move_to_list_trace (db : DB) (c : Card) (listId : Nat) (pos : Int) : List DB :=
  [db, (move_to_list db c listId pos).2]

/-- Embeds `CRUDCard.reorder` (app/crud/card.py): assign `position` only, then
commit once; `updated_at` refreshed as for `move_to_list`. -/
def reorder (db : DB) (c : Card) (newPos : Int) : Card × DB :=
  let c2 : Card := { c with position := newPos, updated_at := db.now }
  (c2, db.putCard c2)

/-- An `HTTPException` as seen by the caller: status code and detail. -/
structure Herr where
  statusCode : Nat
  detail : String
deriving DecidableEq, Repr

def cardNotFoundErr : Herr := ⟨404, "Card not found"⟩
def listNotFoundErr : Herr := ⟨404, "List not found"⟩
def boardNotFoundErr : Herr := ⟨404, "Board not found"⟩
def targetListNotFoundErr : Herr := ⟨404, "Target list not found"⟩
def moveForbiddenErr : Herr := ⟨403, "Not authorized to move this card"⟩
def reorderForbiddenErr : Herr := ⟨403, "Not authorized to reorder this card"⟩
def updateBoardForbiddenErr : Herr := ⟨403, "Not authorized to update this board"⟩
def deleteListForbiddenErr : Herr := ⟨403, "Not authorized to delete this list"⟩
def crossBoardErr : Herr := ⟨400, "Cannot move card to a list in a different board"⟩
def emailConflictErr : Herr := ⟨400, "Email already registered"⟩
def usernameConflictErr : Herr := ⟨400, "Username already taken"⟩
def wrongPasswordErr : Herr := ⟨400, "Incorrect password"⟩

/-- An unhandled `AttributeError`: the endpoints dereference the result of
`list_crud.get` / `board_crud.get` on a parent without a `None` check, so
a card or list whose parent row is missing makes the transport layer
answer 500.  The stored invariants (§3 of the spec) rule this out for
well-formed stores. -/
def internalErr : Herr := ⟨500, "Internal Server Error"⟩

/-- The parent chain of a card: its current list and that list's board,
as the endpoints fetch them (`list_crud.get` on `card.list_id`, then
`board_crud.get` on `current_list.board_id`). -/
def DB.cardChain (db : DB) (c : Card) : Option (TaskList × Board) :=
  (db.getList c.list_id).bind fun l =>
    (db.getBoard l.board_id).map fun b => (l, b)

/-- Endpoint `move_card` (app/api/v1/endpoints/cards.py): fetch the card
(404), walk its current chain and compare the board owner with the caller
(403), fetch the target list (404), reject a target on a different board
(400), then `move_to_list`. -/
def move_card (db : DB) (userId cardId targetListId : Nat) (pos : Int) :
    Except Herr (Card × DB) :=
  match db.getCard cardId with
  | none => .error cardNotFoundErr
  | some card =>
    match db.cardChain card with
    | none => .error internalErr
    | some (_, currentBoard) =>
      if currentBoard.owner_id ≠ userId then
        .error moveForbiddenErr
      else
        match db.getList targetListId with
        | none => .error targetListNotFoundErr
        | some targetList =>
          if targetList.board_id ≠ currentBoard.id then
            .error crossBoardErr
          else
            .ok (move_to_list db card targetListId pos)

/-- Endpoint `reorder_card` (app/api/v1/endpoints/cards.py): fetch the
card (404), check board ownership through the chain (403), then
`CRUDCard.reorder`. -/
def reorder_card (db : DB) (userId cardId : Nat) (pos : Int) :
    Except Herr (Card × DB) :=
  match db.getCard cardId with
  | none => .error cardNotFoundErr
  | some card =>
    match db.cardChain card with
    | none => .error internalErr
    | some (_, board) =>
      if board.owner_id ≠ userId then
        .error reorderForbiddenErr
      else
        .ok (reorder db card pos)

/-- Partial update payload for a board (`BoardUpdate` in
app/schemas/board.py). -/
structure BoardUpdate where
  title : Option String
  description : Option String
deriving DecidableEq, Repr

/-- Modelled from the spec: `CRUDBase.update` (app/crud/base.py is not
among the sources) applies exactly the submitted partial fields to the
stored entity and refreshes `updated_at`. -/
def applyBoardUpdate (db : DB) (b : Board) (inp : BoardUpdate) : Board :=
  { b with
      title := inp.title.getD b.title
      description := match inp.description with
        | some s => some s
        | none => b.description
      updated_at := db.now }

/-- Endpoint `update_board` (app/api/v1/endpoints/boards.py): fetch the
board (404), compare `owner_id` with the caller (403), then update. -/
def update_board (db : DB) (userId boardId : Nat) (inp : BoardUpdate) :
    Except Herr (Board × DB) :=
  match db.getBoard boardId with
  | none => .error boardNotFoundErr
  | some b =>
    if b.owner_id ≠ userId then
      .error updateBoardForbiddenErr
    else
      let b2 := applyBoardUpdate db b inp
      .ok (b2, { db with boards := db.boards.map (fun x => if x.id = b.id then b2 else x) })

/-- Modelled from the spec: `CRUDBase.remove` (app/crud/base.py is not
among the sources) deletes the row with the given primary key; the
`cascade="all, delete-orphan"` relationship on `List.cards`
(app/models/list.py) deletes the cards of a deleted list with it. -/
def removeList (db : DB) (listId : Nat) : DB :=
  { db with
      lists := db.lists.filter (fun l => !(l.id == listId))
      cards := db.cards.filter (fun c => !(c.list_id == listId)) }

/-- Endpoint `delete_list` (app/api/v1/endpoints/lists.py): fetch the list
(404), fetch its board and compare the owner with the caller (403), then
remove the list (cascading to its cards). -/
def delete_list (db : DB) (userId listId : Nat) : Except Herr DB :=
  match db.getList listId with
  | none => .error listNotFoundErr
  | some l =>
    match db.getBoard l.board_id with
    | none => .error internalErr
    | some b =>
      if b.owner_id ≠ userId then
        .error deleteListForbiddenErr
      else
        .ok (removeList db listId)

/-- Embeds `CRUDBoard.get_multi_by_owner` (app/crud/board.py): the boards whose
`owner_id` equals the given owner, in table order with no `order_by`,
windowed by `offset(skip).limit(limit)`. -/
def get_multi_by_owner (db : DB) (ownerId skip limit : Nat) : List Board :=
  ((db.boards.filter (fun b => b.owner_id == ownerId)).drop skip).take limit

/-- Endpoint `list_boards` (app/api/v1/endpoints/boards.py): delegates to
`get_multi_by_owner` with the caller as owner; `skip` defaults to 0 and
`limit` to 100. -/
def list_boards (db : DB) (userId skip limit : Nat) : List Board :=
  get_multi_by_owner db userId skip limit

/-- Partial update payload for the profile (`UserUpdate` in
app/schemas/user.py). -/
structure UserUpdate where
  email : Option String
  username : Option String
  full_name : Option String
  is_active : Option Bool
deriving DecidableEq, Repr

/-- Modelled from the spec: `CRUDBase.update` applied to a user row. -/
def applyUserUpdate (db : DB) (u : User) (inp : UserUpdate) : User :=
  { u with
      email := inp.email.getD u.email
      username := inp.username.getD u.username
      full_name := match inp.full_name with
        | some s => some s
        | none => u.full_name
      is_active := inp.is_active.getD u.is_active
      updated_at := db.now }

/-- The email arm of the uniqueness guard in `update_user_me`
(app/api/v1/endpoints/users.py): it fires only when the submitted email
is truthy (Python: `if user_in.email`), differs from the caller's current
email, and `get_by_email` (app/crud/user.py) finds a user carrying it. -/
def email_conflict (db : DB) (u : User) (inp : UserUpdate) : Bool :=
  match inp.email with
  | some e => (e != "") && (e != u.email) && db.users.any (fun v => v.email == e)
  | none => false

/-- The username arm of the same guard: `if user_in.username and
user_in.username != current_user.username` followed by the
`get_by_username` existence check. -/
def username_conflict (db : DB) (u : User) (inp : UserUpdate) : Bool :=
  match inp.username with
  | some n => (n != "") && (n != u.username) && db.users.any (fun v => v.username == n)
  | none => false

/-- Endpoint `update_user_me` (app/api/v1/endpoints/users.py): the email
guard, then the username guard, then `CRUDBase.update` applied to the
caller's row. -/
def update_user_me (db : DB) (u : User) (inp : UserUpdate) :
    Except Herr (User × DB) :=
  if email_conflict db u inp then
    .error emailConflictErr
  else if username_conflict db u inp then
    .error usernameConflictErr
  else
    let u2 := applyUserUpdate db u inp
    .ok (u2, { db with users := db.users.map (fun x => if x.id = u.id then u2 else x) })

/-- The error taxonomy of the specification (§7). -/
inductive ErrKind where
  | notFound
  | forbidden
  | conflict
  | invalidOp
  | unauthorized
deriving DecidableEq, Repr

/-- The distinct caller-visible error responses raised by the endpoint
modules (every `raise HTTPException` in app/api/deps.py and
app/api/v1/endpoints/, deduplicated), each tagged with its kind in the
taxonomy of §7 of the specification. -/
def errorSites : List (ErrKind × Herr) :=
  [ (.notFound, boardNotFoundErr),
    (.notFound, listNotFoundErr),
    (.notFound, cardNotFoundErr),
    (.notFound, targetListNotFoundErr),
    (.forbidden, ⟨403, "Not authorized to access this board"⟩),
    (.forbidden, ⟨403, "Not authorized to update this board"⟩),
    (.forbidden, ⟨403, "Not authorized to delete this board"⟩),
    (.forbidden, ⟨403, "Not authorized to access this list"⟩),
    (.forbidden, ⟨403, "Not authorized to update this list"⟩),
    (.forbidden, ⟨403, "Not authorized to delete this list"⟩),
    (.forbidden, ⟨403, "Not authorized to reorder this list"⟩),
    (.forbidden, ⟨403, "Not authorized to access this card"⟩),
    (.forbidden, ⟨403, "Not authorized to update this card"⟩),
    (.forbidden, ⟨403, "Not authorized to delete this card"⟩),
    (.forbidden, moveForbiddenErr),
    (.forbidden, reorderForbiddenErr),
    (.conflict, emailConflictErr),
    (.conflict, usernameConflictErr),
    (.invalidOp, crossBoardErr),
    (.invalidOp, wrongPasswordErr),
    (.unauthorized, ⟨401, "Could not validate credentials"⟩),
    (.unauthorized, ⟨401, "Incorrect email or password"⟩),
    (.unauthorized, ⟨400, "Inactive user"⟩) ]

/-- A user row with defaulted secondary fields, for concrete stores. -/
def mkUser (i : Nat) (e n : String) : User :=
  ⟨i, e, n, "hash", none, true, false, 0, 0⟩

/-- A board row with defaulted secondary fields, for concrete stores. -/
def mkBoard (i o : Nat) : Board :=
  ⟨i, "B", none, o, 0, 0⟩

/-- A list row with defaulted secondary fields, for concrete stores. -/
def mkTaskList (i b : Nat) (p : Int) : TaskList :=
  ⟨i, "L", p, b, 0, 0⟩

/-- A card row with defaulted secondary fields, for concrete stores. -/
def mkCard (i l : Nat) (p : Int) : Card :=
  ⟨i, "C", none, p, l, none, none, none, 0, 0⟩

/-- A small concrete store: alice (user 1) owns boards 10 and 20, bob
(user 2) owns board 30; board 10 holds lists 100 and 101, board 20 holds
list 200, board 30 holds list 300; card 1000 sits in list 100. -/
def dbA : DB :=
  { users := [mkUser 1 "a@x" "alice", mkUser 2 "b@x" "bob"]
    boards := [mkBoard 10 1, mkBoard 20 1, mkBoard 30 2]
    lists := [mkTaskList 100 10 0, mkTaskList 101 10 1,
              mkTaskList 200 20 0, mkTaskList 300 30 0]
    cards := [mkCard 1000 100 0]
    now := 5 }

/-- A row found under key `k` carries id `k`. -/
theorem card_find?_key {l : List Card} {k : Nat} {c : Card}
    (h : l.find? (fun x => x.id == k) = some c) : c.id = k := by
  have hp := List.find?_some h
  simpa using hp

/-- Committing a replacement row with the looked-up id makes the lookup
return the replacement. -/
theorem card_find?_replace {l : List Card} {k : Nat} {c c2 : Card}
    (h : l.find? (fun x => x.id == k) = some c) (h2 : c2.id = k) :
    (l.map (fun x => if x.id = c.id then c2 else x)).find? (fun x => x.id == k)
      = some c2 := by
  induction l with
  | nil => simp at h
  | cons a t ih =>
    by_cases ha : a.id = k
    · rw [List.find?_cons_of_pos _ (by simpa using ha)] at h
      have hac : a = c := by injection h
      subst hac
      simp only [List.map_cons, if_pos rfl]
      exact List.find?_cons_of_pos _ (by simpa using h2)
    · rw [List.find?_cons_of_neg _ (by simpa using ha)] at h
      have hck : c.id = k := card_find?_key h
      have hane : a.id ≠ c.id := by
        rw [hck]; exact ha
      simp only [List.map_cons, if_neg hane]
      rw [List.find?_cons_of_neg _ (by simpa using ha)]
      exact ih h

/-- Committing a replacement row leaves lookups under every other key
unchanged. -/
theorem card_find?_replace_ne {l : List Card} (k cid : Nat) (c2 : Card)
    (hk : k ≠ cid) (h2 : c2.id = cid) :
    (l.map (fun x => if x.id = cid then c2 else x)).find? (fun x => x.id == k)
      = l.find? (fun x => x.id == k) := by
  induction l with
  | nil => simp
  | cons a t ih =>
    simp only [List.map_cons]
    by_cases ha : a.id = cid
    · have hc2k : (c2.id == k) = false := by
        rw [h2]; exact beq_eq_false_iff_ne.mpr (Ne.symm hk)
      have hak : (a.id == k) = false := by
        rw [ha]; exact beq_eq_false_iff_ne.mpr (Ne.symm hk)
      rw [if_pos ha]
      simp only [List.find?, hc2k, hak]
      exact ih
    · rw [if_neg ha]
      cases hak : (a.id == k) with
      | true => simp only [List.find?, hak]
      | false =>
        simp only [List.find?, hak]
        exact ih

/-- Claim C2: `move_card` evaluates its preconditions in the fixed order
card-exists (404), caller-owns-current-board (403), target-list-exists
(404), same-board (400), and an earlier failure masks every later one:
each conjunct pins the outcome from its own prefix of checks alone,
whatever the remaining inputs look like. -/
theorem move_card_check_order (db : DB) (u cid tid : Nat) (p : Int) :
    (db.getCard cid = none → move_card db u cid tid p = .error cardNotFoundErr)
    ∧ (∀ c l b, db.getCard cid = some c → db.cardChain c = some (l, b) →
        b.owner_id ≠ u → move_card db u cid tid p = .error moveForbiddenErr)
    ∧ (∀ c l b, db.getCard cid = some c → db.cardChain c = some (l, b) →
        b.owner_id = u → db.getList tid = none →
        move_card db u cid tid p = .error targetListNotFoundErr)
    ∧ (∀ c l b tl, db.getCard cid = some c → db.cardChain c = some (l, b) →
        b.owner_id = u → db.getList tid = some tl → tl.board_id ≠ b.id →
        move_card db u cid tid p = .error crossBoardErr) := by
  refine ⟨?_, ?_, ?_, ?_⟩
  · intro h
    simp [move_card, h]
  · intro c l b hc hch hb
    simp [move_card, hc, hch, hb]
  · intro c l b hc hch hb ht
    simp [move_card, hc, hch, hb, ht]
  · intro c l b tl hc hch hb ht hne
    simp [move_card, hc, hch, hb, ht, hne]

/-- Witness for C2, at the example in the claim: bob (user 2) moving
alice's card 1000 to the nonexistent list 999 gets Forbidden, not the
NotFound of the later target-list check. -/
theorem move_card_check_order_witness :
    move_card dbA 2 1000 999 0 = .error moveForbiddenErr :=
  (move_card_check_order dbA 2 1000 999 0).2.1 (mkCard 1000 100 0)
    (mkTaskList 100 10 0) (mkBoard 10 1) (by rfl) (by rfl) (by decide)

/-- Claim C3: a move whose existing target list sits on a board different
from the board of the card's current list fails with the cross-board
InvalidOperation response; no ownership hypothesis about the target board
appears, so owning both boards changes nothing. -/
theorem move_card_cross_board (db : DB) (u cid tid : Nat) (p : Int)
    (c : Card) (l tl : TaskList) (b : Board)
    (hc : db.getCard cid = some c) (hch : db.cardChain c = some (l, b))
    (hb : b.owner_id = u) (ht : db.getList tid = some tl)
    (hne : tl.board_id ≠ b.id) :
    move_card db u cid tid p = .error crossBoardErr := by
  simp [move_card, hc, hch, hb, ht, hne]

/-- Witness for C3: alice owns board 10 (holding card 1000) and board 20
(holding list 200) — the first conjunct records the dual ownership — yet
moving the card to list 200 is rejected with the cross-board response. -/
theorem move_card_cross_board_witness :
    (dbA.getBoard 20).map Board.owner_id = (dbA.getBoard 10).map Board.owner_id
    ∧ move_card dbA 1 1000 200 7 = .error crossBoardErr :=
  ⟨by rfl, move_card_cross_board dbA 1 1000 200 7 (mkCard 1000 100 0)
    (mkTaskList 100 10 0) (mkTaskList 200 20 0) (mkBoard 10 1)
    (by rfl) (by rfl) (by rfl) (by rfl) (by decide)⟩

/-- Looking up the key of a committed replacement row returns the
replacement. -/
theorem getCard_putCard_self (db : DB) (cid : Nat) (c1 c2 : Card)
    (hc : db.getCard cid = some c1) (h2 : c2.id = c1.id) :
    (db.putCard c2).getCard cid = some c2 := by
  have hcid : c1.id = cid := card_find?_key hc
  have h3 : (db.cards.map (fun x => if x.id = c1.id then c2 else x)).find?
      (fun x => x.id == cid) = some c2 := card_find?_replace hc (h2.trans hcid)
  show (db.cards.map (fun x => if x.id = c2.id then c2 else x)).find?
      (fun x => x.id == cid) = some c2
  rw [h2]
  exact h3

/-- Looking up any other key after a commit is unchanged. -/
theorem getCard_putCard_ne (db : DB) (k : Nat) (c2 : Card)
    (hk : k ≠ c2.id) :
    (db.putCard c2).getCard k = db.getCard k := by
  show (db.cards.map (fun x => if x.id = c2.id then c2 else x)).find?
      (fun x => x.id == k) = db.cards.find? (fun x => x.id == k)
  exact card_find?_replace_ne k c2.id c2 hk rfl

/-- Claim C1: a successful `move_card` returns a card whose `list_id` is
the target list and whose `position` is the supplied value, the stored row
equals the returned card, and the update is atomic: every state of the
commit trace of `move_to_list` holds either the untouched old row or the
fully updated one — never the new `list_id` with the stale position. -/
theorem move_card_atomic (db : DB) (u cid tid : Nat) (p : Int) (c2 : Card)
    (db2 : DB) (h : move_card db u cid tid p = .ok (c2, db2)) :
    c2.list_id = tid ∧ c2.position = p ∧ db2.getCard cid = some c2 ∧
    ∃ c1, db.getCard cid = some c1 ∧
      move_to_list_trace db c1 tid p = [db, db2] ∧
      ∀ s ∈ move_to_list_trace db c1 tid p,
        s.getCard cid = some c1 ∨ s.getCard cid = some c2 := by
  cases hc : db.getCard cid with
  | none => simp [move_card, hc] at h
  | some c1 =>
    cases hch : db.cardChain c1 with
    | none => simp [move_card, hc, hch] at h
    | some lb =>
      obtain ⟨l, b⟩ := lb
      by_cases hb : b.owner_id ≠ u
      · simp [move_card, hc, hch, hb] at h
      · cases ht : db.getList tid with
        | none => simp [move_card, hc, hch, hb, ht] at h
        | some tl =>
          by_cases htb : tl.board_id ≠ b.id
          · simp [move_card, hc, hch, hb, ht, htb] at h
          · have hmv : move_to_list db c1 tid p = (c2, db2) := by
              simp only [move_card, hc, hch, ht] at h
              rw [if_neg hb, if_neg htb] at h
              exact Except.ok.inj h
            have hcid : c1.id = cid := card_find?_key hc
            have hcard :
                ({ c1 with
                    list_id := tid
                    position := p
                    updated_at := db.now } : Card) = c2 :=
              congrArg Prod.fst hmv
            have hdb :
                db.putCard { c1 with
                    list_id := tid
                    position := p
                    updated_at := db.now } = db2 :=
              congrArg Prod.snd hmv
            subst hcard
            subst hdb
            refine ⟨rfl, rfl, ?_, c1, rfl, rfl, ?_⟩
            · exact getCard_putCard_self db cid c1 _ hc rfl
            · intro s hs
              simp only [move_to_list_trace, List.mem_cons,
                List.not_mem_nil, or_false] at hs
              rcases hs with h1 | h2
              · rw [h1]
                exact Or.inl hc
              · rw [h2]
                exact Or.inr (getCard_putCard_self db cid c1 _ hc rfl)

/-- The card of `dbA` after the witness move: in list 101 at position 3,
with `updated_at` refreshed to the clock of `dbA`. -/
def cardW : Card := ⟨1000, "C", none, 3, 101, none, none, none, 0, 5⟩

/-- The store of `dbA` after the witness move. -/
def dbW : DB := { dbA with cards := [cardW] }

/-- Witness for C1: alice moves card 1000 to list 101 at position 3. -/
theorem move_card_atomic_witness :
    move_card dbA 1 1000 101 3 = .ok (cardW, dbW) ∧
    (cardW.list_id = 101 ∧ cardW.position = 3 ∧
      dbW.getCard 1000 = some cardW ∧
      ∃ c1, dbA.getCard 1000 = some c1 ∧
        move_to_list_trace dbA c1 101 3 = [dbA, dbW] ∧
        ∀ s ∈ move_to_list_trace dbA c1 101 3,
          s.getCard 1000 = some c1 ∨ s.getCard 1000 = some cardW) :=
  ⟨by rfl, move_card_atomic dbA 1 1000 101 3 cardW dbW (by rfl)⟩

/-- Claim C6: a successful `reorder_card` performs a raw position
assignment on the target card only — the returned card is the old row
with just `position` (and the `onupdate` timestamp) changed, its
`list_id` is untouched, every other key reads back unchanged, and the
`lists`, `boards` and `users` tables are untouched; no hypothesis
excludes a sibling already sitting at the same position. -/
theorem reorder_card_frame (db : DB) (u cid : Nat) (p : Int) (c2 : Card)
    (db2 : DB) (h : reorder_card db u cid p = .ok (c2, db2)) :
    ∃ c1, db.getCard cid = some c1 ∧
      c2 = { c1 with position := p, updated_at := db.now } ∧
      c2.position = p ∧ c2.list_id = c1.list_id ∧
      db2.getCard cid = some c2 ∧
      (∀ k, k ≠ cid → db2.getCard k = db.getCard k) ∧
      db2.lists = db.lists ∧ db2.boards = db.boards ∧ db2.users = db.users := by
  cases hc : db.getCard cid with
  | none => simp [reorder_card, hc] at h
  | some c1 =>
    cases hch : db.cardChain c1 with
    | none => simp [reorder_card, hc, hch] at h
    | some lb =>
      obtain ⟨l, b⟩ := lb
      by_cases hb : b.owner_id ≠ u
      · simp [reorder_card, hc, hch, hb] at h
      · have hmv : reorder db c1 p = (c2, db2) := by
          simp only [reorder_card, hc, hch] at h
          rw [if_neg hb] at h
          exact Except.ok.inj h
        have hcid : c1.id = cid := card_find?_key hc
        have hcard :
            ({ c1 with position := p, updated_at := db.now } : Card) = c2 :=
          congrArg Prod.fst hmv
        have hdb :
            db.putCard { c1 with position := p, updated_at := db.now } = db2 :=
          congrArg Prod.snd hmv
        subst hcard
        subst hdb
        refine ⟨c1, rfl, rfl, rfl, rfl, ?_, ?_, rfl, rfl, rfl⟩
        · exact getCard_putCard_self db cid c1 _ hc rfl
        · intro k hkne
          exact getCard_putCard_ne db k _ (by simpa [hcid] using hkne)

/-- A store like `dbA` but with three cards: 1000 and 1001 in list 100 and
2000 in list 200, so that the reorder witness has siblings and a foreign
card to leave untouched. -/
def dbB : DB :=
  { dbA with cards := [mkCard 1000 100 0, mkCard 1001 100 4, mkCard 2000 200 9] }

/-- Card 1000 of `dbB` after the witness reorder to position 4 — a
position already held by its sibling 1001. -/
def cardV : Card := ⟨1000, "C", none, 4, 100, none, none, none, 0, 5⟩

/-- The store of `dbB` after the witness reorder. -/
def dbV : DB :=
  { dbA with cards := [cardV, mkCard 1001 100 4, mkCard 2000 200 9] }

/-- Witness for C6: alice reorders card 1000 onto the position its
sibling already occupies; nothing else moves. -/
theorem reorder_card_frame_witness :
    reorder_card dbB 1 1000 4 = .ok (cardV, dbV) ∧
    (∃ c1, dbB.getCard 1000 = some c1 ∧
      cardV = { c1 with position := 4, updated_at := dbB.now } ∧
      cardV.position = 4 ∧ cardV.list_id = c1.list_id ∧
      dbV.getCard 1000 = some cardV ∧
      (∀ k, k ≠ 1000 → dbV.getCard k = dbB.getCard k) ∧
      dbV.lists = dbB.lists ∧ dbV.boards = dbB.boards ∧ dbV.users = dbB.users) :=
  ⟨by rfl, reorder_card_frame dbB 1 1000 4 cardV dbV (by rfl)⟩

/-- Claim C4: `reorder_card`, `update_board` and `delete_list` fetch the
named entity first and answer NotFound when it is absent — whatever else
the store lacks, including intermediate parents — and answer Forbidden
exactly when the entity exists but the transitively resolved owner is a
different user. -/
theorem fetch_then_authorize (db : DB) (u cid bid lid : Nat) (p : Int)
    (inp : BoardUpdate) :
    (db.getCard cid = none → reorder_card db u cid p = .error cardNotFoundErr)
    ∧ (∀ c l b, db.getCard cid = some c → db.cardChain c = some (l, b) →
        b.owner_id ≠ u → reorder_card db u cid p = .error reorderForbiddenErr)
    ∧ (db.getBoard bid = none →
        update_board db u bid inp = .error boardNotFoundErr)
    ∧ (∀ b, db.getBoard bid = some b → b.owner_id ≠ u →
        update_board db u bid inp = .error updateBoardForbiddenErr)
    ∧ (db.getList lid = none → delete_list db u lid = .error listNotFoundErr)
    ∧ (∀ l b, db.getList lid = some l → db.getBoard l.board_id = some b →
        b.owner_id ≠ u → delete_list db u lid = .error deleteListForbiddenErr) := by
  refine ⟨?_, ?_, ?_, ?_, ?_, ?_⟩
  · intro h
    simp [reorder_card, h]
  · intro c l b hc hch hb
    simp [reorder_card, hc, hch, hb]
  · intro h
    simp [update_board, h]
  · intro b hbb hb
    simp [update_board, hbb, hb]
  · intro h
    simp [delete_list, h]
  · intro l b hl hbb hb
    simp [delete_list, hl, hbb, hb]

/-- The empty store. -/
def dbEmpty : DB := ⟨[], [], [], [], 0⟩

/-- Witness for C4: a reorder against the empty store (card and every
parent missing) answers NotFound, while bob touching alice's board 10 or
list 100 answers Forbidden. -/
theorem fetch_then_authorize_witness :
    reorder_card dbEmpty 1 1000 0 = .error cardNotFoundErr ∧
    update_board dbA 2 10 ⟨none, none⟩ = .error updateBoardForbiddenErr ∧
    delete_list dbA 2 100 = .error deleteListForbiddenErr :=
  ⟨(fetch_then_authorize dbEmpty 1 1000 10 100 0 ⟨none, none⟩).1 (by rfl),
   (fetch_then_authorize dbA 2 1000 10 100 0 ⟨none, none⟩).2.2.2.1
     (mkBoard 10 1) (by rfl) (by decide),
   (fetch_then_authorize dbA 2 1000 10 100 0 ⟨none, none⟩).2.2.2.2.2
     (mkTaskList 100 10 0) (mkBoard 10 1) (by rfl) (by rfl) (by decide)⟩

/-- Claim C9: when the target list of a move is the card's current list,
the preconditions degenerate (the target exists and trivially sits on the
same board), the move succeeds, and it returns exactly what
`CRUDCard.reorder` returns — `move_card` degenerates to `reorder_card`. -/
theorem move_current_list_eq_reorder (db : DB) (u cid : Nat) (p : Int)
    (c : Card) (l : TaskList) (b : Board)
    (hc : db.getCard cid = some c) (hch : db.cardChain c = some (l, b))
    (hb : b.owner_id = u) :
    move_card db u cid c.list_id p = .ok (reorder db c p) ∧
    move_card db u cid c.list_id p = reorder_card db u cid p := by
  have hdec : db.getList c.list_id = some l ∧ db.getBoard l.board_id = some b := by
    cases hgl : db.getList c.list_id with
    | none => simp [DB.cardChain, hgl] at hch
    | some l0 =>
      cases hgb : db.getBoard l0.board_id with
      | none => simp [DB.cardChain, hgl, hgb] at hch
      | some b0 =>
        simp [DB.cardChain, hgl, hgb] at hch
        obtain ⟨hl0, hb0⟩ := hch
        subst hl0
        subst hb0
        exact ⟨rfl, hgb⟩
  obtain ⟨hgl, hgb⟩ := hdec
  have hbid : b.id = l.board_id := by
    have hp := List.find?_some hgb
    simpa using hp
  have h1 : move_card db u cid c.list_id p = .ok (move_to_list db c c.list_id p) := by
    simp [move_card, hc, hch, hb, hgl, hbid]
  have h2 : move_to_list db c c.list_id p = reorder db c p := rfl
  have h3 : reorder_card db u cid p = .ok (reorder db c p) := by
    simp [reorder_card, hc, hch, hb]
  exact ⟨h1.trans (congrArg Except.ok h2), (h1.trans (congrArg Except.ok h2)).trans h3.symm⟩

/-- Witness for C9: alice moves card 1000 onto its own list 100. -/
theorem move_current_list_eq_reorder_witness :
    move_card dbA 1 1000 100 8 = .ok (reorder dbA (mkCard 1000 100 0) 8) ∧
    move_card dbA 1 1000 100 8 = reorder_card dbA 1 1000 8 :=
  move_current_list_eq_reorder dbA 1 1000 8 (mkCard 1000 100 0)
    (mkTaskList 100 10 0) (mkBoard 10 1) (by rfl) (by rfl) (by rfl)

/-- A board owned by user 1, indexed by id, for the pagination
counterexample. -/
def mkOwnedBoard (i : Nat) : Board := ⟨i, "B", none, 1, 0, 0⟩

/-- A store in which user 1 owns 101 boards — one more than the default
`limit=100` of `list_boards`. -/
def manyBoardsDB : DB :=
  { users := [], boards := (List.range 101).map mkOwnedBoard,
    lists := [], cards := [], now := 0 }

set_option maxRecDepth 4000 in
/-- Counterexample to claim C5 as stated: with the default pagination
(`skip=0`, `limit=100`) a caller owning 101 boards does NOT receive every
board whose `owner_id` is theirs — the result is truncated at 100. -/
theorem list_boards_not_complete :
    ¬ (∀ b ∈ manyBoardsDB.boards, b.owner_id = 1 →
        b ∈ list_boards manyBoardsDB 1 0 100) := by
  decide

/-- Claim C5 as amended: `list_boards` returns exactly the owner-filtered
board sequence windowed by `skip` and `limit` — every returned board is
owned by the caller and comes from the store, and whenever the caller's
boards fit inside `limit` (with `skip = 0`) the result is exactly the set
of boards with the caller's `owner_id`. -/
theorem list_boards_owner_window (db : DB) (u s k : Nat) :
    (∀ b ∈ list_boards db u s k, b.owner_id = u ∧ b ∈ db.boards)
    ∧ list_boards db u s k
        = ((db.boards.filter (fun b => b.owner_id == u)).drop s).take k
    ∧ ((db.boards.filter (fun b => b.owner_id == u)).length ≤ k →
        ∀ b, b ∈ list_boards db u 0 k ↔ b ∈ db.boards ∧ b.owner_id = u) := by
  refine ⟨?_, rfl, ?_⟩
  · intro b hb
    have h1 : b ∈ (db.boards.filter (fun x => x.owner_id == u)).drop s :=
      List.mem_of_mem_take hb
    have h2 : b ∈ db.boards.filter (fun x => x.owner_id == u) :=
      List.mem_of_mem_drop h1
    have h3 := List.mem_filter.mp h2
    exact ⟨by simpa using h3.2, h3.1⟩
  · intro hlen b
    have hw : list_boards db u 0 k = db.boards.filter (fun x => x.owner_id == u) := by
      show ((db.boards.filter _).drop 0).take k = _
      rw [List.drop_zero _]
      exact List.take_of_length_le hlen
    rw [hw, List.mem_filter]
    simp

/-- Witness for amended C5: in `dbA`, membership in the caller's listing
coincides with owned membership in the store for board 10. -/
theorem list_boards_owner_window_witness :
    mkBoard 10 1 ∈ list_boards dbA 1 0 100 ↔
      mkBoard 10 1 ∈ dbA.boards ∧ (mkBoard 10 1).owner_id = 1 :=
  (list_boards_owner_window dbA 1 0 100).2.2 (by decide) (mkBoard 10 1)

/-- Counterexample to claim C8 as stated: error kinds do NOT all map to
distinct statuses — the table of raise sites contains two sites of
different kinds (a Conflict and an InvalidOperation) sharing status
code 400. -/
theorem error_status_collision :
    ¬ (∀ s1 ∈ errorSites, ∀ s2 ∈ errorSites, s1.1 ≠ s2.1 →
        s1.2.statusCode ≠ s2.2.statusCode) := by
  decide

/-- Claim C8 as amended: any two raise sites of different kinds still
produce different full responses (status plus detail), NotFound is
exactly the 404 sites and Forbidden exactly the 403 sites — so those two
are never collapsed — but Conflict and InvalidOperation are separated
only by the detail text: the email-conflict site and the wrong-password
site share status 400. -/
theorem errorSites_discrimination :
    (∀ s1 ∈ errorSites, ∀ s2 ∈ errorSites, s1.1 ≠ s2.1 → s1.2 ≠ s2.2)
    ∧ (∀ s ∈ errorSites, (s.1 = ErrKind.notFound ↔ s.2.statusCode = 404))
    ∧ (∀ s ∈ errorSites, (s.1 = ErrKind.forbidden ↔ s.2.statusCode = 403))
    ∧ (ErrKind.conflict, emailConflictErr) ∈ errorSites
    ∧ (ErrKind.invalidOp, wrongPasswordErr) ∈ errorSites
    ∧ emailConflictErr.statusCode = wrongPasswordErr.statusCode := by
  decide

/-- If the email guard fires, the submitted email is a non-empty string
different from the caller's current email and carried by a stored user. -/
theorem email_conflict_spec (db : DB) (u : User) (inp : UserUpdate)
    (h : email_conflict db u inp = true) :
    ∃ e, inp.email = some e ∧ e ≠ u.email ∧ ∃ v ∈ db.users, v.email = e := by
  cases hem : inp.email with
  | none => simp [email_conflict, hem] at h
  | some e =>
    simp only [email_conflict, hem, Bool.and_eq_true, bne_iff_ne, ne_eq,
      List.any_eq_true, beq_iff_eq] at h
    exact ⟨e, rfl, h.1.2, h.2⟩

/-- If the username guard fires, the submitted username is a non-empty
string different from the caller's current username and carried by a
stored user. -/
theorem username_conflict_spec (db : DB) (u : User) (inp : UserUpdate)
    (h : username_conflict db u inp = true) :
    ∃ n, inp.username = some n ∧ n ≠ u.username ∧
      ∃ v ∈ db.users, v.username = n := by
  cases hun : inp.username with
  | none => simp [username_conflict, hun] at h
  | some n =>
    simp only [username_conflict, hun, Bool.and_eq_true, bne_iff_ne, ne_eq,
      List.any_eq_true, beq_iff_eq] at h
    exact ⟨n, rfl, h.1.2, h.2⟩

/-- When neither guard fires, `update_user_me` applies the update to the
caller's stored row and succeeds. -/
theorem update_user_me_ok (db : DB) (u : User) (inp : UserUpdate)
    (he : email_conflict db u inp = false)
    (hu : username_conflict db u inp = false) :
    update_user_me db u inp
      = .ok (applyUserUpdate db u inp,
          { db with users := db.users.map (fun x => if x.id = u.id then applyUserUpdate db u inp else x) }) := by
  simp [update_user_me, he, hu]

/-- Claim C10: `update_user_me` never reports a conflict against the
caller's own current values — submitting one's own email or username
skips the corresponding guard and (when both fields are self-valued or
absent) the update succeeds, even though those values are present in the
store — and a conflict error entails a submitted value that differs from
the caller's current one and is carried by a stored user. -/
theorem update_user_me_self_values (db : DB) (u : User) (inp : UserUpdate) :
    ((inp.email = some u.email ∨ inp.email = none) →
      (inp.username = some u.username ∨ inp.username = none) →
      ∃ u2 db2, update_user_me db u inp = .ok (u2, db2))
    ∧ (inp.email = some u.email →
        update_user_me db u inp ≠ .error emailConflictErr)
    ∧ (inp.username = some u.username →
        update_user_me db u inp ≠ .error usernameConflictErr)
    ∧ (update_user_me db u inp = .error emailConflictErr →
        ∃ e, inp.email = some e ∧ e ≠ u.email ∧ ∃ v ∈ db.users, v.email = e)
    ∧ (update_user_me db u inp = .error usernameConflictErr →
        ∃ n, inp.username = some n ∧ n ≠ u.username ∧
          ∃ v ∈ db.users, v.username = n) := by
  have hef : ∀ _ : inp.email = some u.email ∨ inp.email = none,
      email_conflict db u inp = false := by
    intro h
    rcases h with h | h <;> simp [email_conflict, h]
  have huf : ∀ _ : inp.username = some u.username ∨ inp.username = none,
      username_conflict db u inp = false := by
    intro h
    rcases h with h | h <;> simp [username_conflict, h]
  refine ⟨?_, ?_, ?_, ?_, ?_⟩
  · intro he hn
    exact ⟨_, _, update_user_me_ok db u inp (hef he) (huf hn)⟩
  · intro he
    cases hu : username_conflict db u inp with
    | true =>
      have hres : update_user_me db u inp = .error usernameConflictErr := by
        simp [update_user_me, hef (Or.inl he), hu]
      rw [hres]
      exact fun hc => absurd (Except.error.inj hc) (by decide)
    | false =>
      rw [update_user_me_ok db u inp (hef (Or.inl he)) hu]
      exact fun hc => Except.noConfusion hc
  · intro hn
    cases he : email_conflict db u inp with
    | true =>
      have hres : update_user_me db u inp = .error emailConflictErr := by
        simp [update_user_me, he]
      rw [hres]
      exact fun hc => absurd (Except.error.inj hc) (by decide)
    | false =>
      rw [update_user_me_ok db u inp he (huf (Or.inl hn))]
      exact fun hc => Except.noConfusion hc
  · intro heq
    cases he : email_conflict db u inp with
    | true => exact email_conflict_spec db u inp he
    | false =>
      exfalso
      cases hu : username_conflict db u inp with
      | true =>
        have hres : update_user_me db u inp = .error usernameConflictErr := by
          simp [update_user_me, he, hu]
        rw [hres] at heq
        exact absurd (Except.error.inj heq) (by decide)
      | false =>
        rw [update_user_me_ok db u inp he hu] at heq
        exact Except.noConfusion heq
  · intro heq
    cases hu : username_conflict db u inp with
    | true => exact username_conflict_spec db u inp hu
    | false =>
      exfalso
      cases he : email_conflict db u inp with
      | true =>
        have hres : update_user_me db u inp = .error emailConflictErr := by
          simp [update_user_me, he]
        rw [hres] at heq
        exact absurd (Except.error.inj heq) (by decide)
      | false =>
        rw [update_user_me_ok db u inp he hu] at heq
        exact Except.noConfusion heq

/-- Witness for C10: alice is stored with email `a@x` and username
`alice`, resubmits both values verbatim, and the update succeeds. -/
theorem update_user_me_self_values_witness :
    (mkUser 1 "a@x" "alice") ∈ dbA.users ∧
    ∃ u2 db2, update_user_me dbA (mkUser 1 "a@x" "alice")
        ⟨some "a@x", some "alice", none, none⟩ = .ok (u2, db2) :=
  ⟨by decide,
    (update_user_me_self_values dbA (mkUser 1 "a@x" "alice")
      ⟨some "a@x", some "alice", none, none⟩).1 (Or.inl rfl) (Or.inl rfl)⟩

/-- Embeds `CRUDCard.reorder` (app/crud/card.py) together with the
documented unit-of-work flush of the persistence collaborator (SQLAlchemy,
outside the sources): assigning `position` a value equal to its committed
value is no net change, so the flush emits no UPDATE, the column default
`onupdate=func.now()` does not fire, and `db.refresh` reloads the
unchanged row; with a net change the commit proceeds as in `reorder`. -/
def reorder_flush (db : DB) (c : Card) (newPos : Int) : Card × DB :=
  if c.position = newPos then (c, db)
  else reorder db c newPos

/-- Endpoint `reorder_card` (app/api/v1/endpoints/cards.py) under the
flush semantics of `reorder_flush`; the fetch and ownership checks are
those of `reorder_card`. -/
def reorder_card_flush (db : DB) (userId cardId : Nat) (pos : Int) :
    Except Herr (Card × DB) :=
  match db.getCard cardId with
  | none => .error cardNotFoundErr
  | some card =>
    match db.cardChain card with
    | none => .error internalErr
    | some (_, board) =>
      if board.owner_id ≠ userId then
        .error reorderForbiddenErr
      else
        .ok (reorder_flush db card pos)

/-- A reorder under flush semantics whose card, chain and ownership
checks pass runs `reorder_flush`. -/
theorem reorder_card_flush_ok (db : DB) (u cid : Nat) (p : Int) (c : Card)
    (l : TaskList) (b : Board) (hc : db.getCard cid = some c)
    (hch : db.cardChain c = some (l, b)) (hb : b.owner_id = u) :
    reorder_card_flush db u cid p = .ok (reorder_flush db c p) := by
  simp [reorder_card_flush, hc, hch, hb]

/-- Claim C7: Reorder is idempotent — after a successful
`Reorder(card, p)`, repeating the call at any later wall-clock value `t`
succeeds, returns the very same card, and leaves all four tables exactly
as the first call left them: the observable state after the second call
equals the state after the first.  The second assignment sets `position`
to its current value, so the flush emits no UPDATE and `onupdate` never
fires. -/
theorem reorder_card_idempotent (db : DB) (u cid : Nat) (p : Int)
    (c : Card) (l : TaskList) (b : Board)
    (hc : db.getCard cid = some c) (hch : db.cardChain c = some (l, b))
    (hb : b.owner_id = u) :
    ∃ c1 db1,
      reorder_card_flush db u cid p = .ok (c1, db1) ∧
      ∀ t, ∃ db2,
        reorder_card_flush { db1 with now := t } u cid p = .ok (c1, db2) ∧
        db2.users = db1.users ∧ db2.boards = db1.boards ∧
        db2.lists = db1.lists ∧ db2.cards = db1.cards := by
  by_cases hp : c.position = p
  · refine ⟨c, db, ?_, ?_⟩
    · have h1 := reorder_card_flush_ok db u cid p c l b hc hch hb
      have h2 : reorder_flush db c p = (c, db) := by
        simp [reorder_flush, hp]
      rw [h1, h2]
    · intro t
      refine ⟨{ db with now := t }, ?_, rfl, rfl, rfl, rfl⟩
      have h1 := reorder_card_flush_ok ({ db with now := t }) u cid p c l b
        hc hch hb
      have h2 : reorder_flush ({ db with now := t } : DB) c p
          = (c, { db with now := t }) := by
        simp [reorder_flush, hp]
      rw [h1, h2]
  · refine ⟨{ c with position := p, updated_at := db.now },
      db.putCard { c with position := p, updated_at := db.now }, ?_, ?_⟩
    · have h1 := reorder_card_flush_ok db u cid p c l b hc hch hb
      have h2 : reorder_flush db c p
          = ({ c with position := p, updated_at := db.now },
             db.putCard { c with position := p, updated_at := db.now }) := by
        simp [reorder_flush, hp, reorder]
      rw [h1, h2]
    · intro t
      have hget : ({ db.putCard { c with position := p, updated_at := db.now } with
          now := t } : DB).getCard cid
          = some { c with position := p, updated_at := db.now } :=
        getCard_putCard_self db cid c _ hc rfl
      have hchain : ({ db.putCard { c with position := p, updated_at := db.now } with
          now := t } : DB).cardChain { c with position := p, updated_at := db.now }
          = some (l, b) := hch
      have h1 := reorder_card_flush_ok
        ({ db.putCard { c with position := p, updated_at := db.now } with now := t })
        u cid p { c with position := p, updated_at := db.now } l b hget hchain hb
      have h2 : reorder_flush
          ({ db.putCard { c with position := p, updated_at := db.now } with
            now := t } : DB)
          { c with position := p, updated_at := db.now } p
          = ({ c with position := p, updated_at := db.now },
             { db.putCard { c with position := p, updated_at := db.now } with
               now := t }) := by
        simp [reorder_flush]
      refine ⟨{ db.putCard { c with position := p, updated_at := db.now } with
        now := t }, ?_, rfl, rfl, rfl, rfl⟩
      rw [h1, h2]

/-- Witness for C7: alice reorders card 1000 to position 3; repeating the
call at any later clock value reproduces the same card and tables. -/
theorem reorder_card_idempotent_witness :
    ∃ c1 db1,
      reorder_card_flush dbA 1 1000 3 = .ok (c1, db1) ∧
      ∀ t, ∃ db2,
        reorder_card_flush { db1 with now := t } 1 1000 3 = .ok (c1, db2) ∧
        db2.users = db1.users ∧ db2.boards = db1.boards ∧
        db2.lists = db1.lists ∧ db2.cards = db1.cards :=
  reorder_card_idempotent dbA 1 1000 3 (mkCard 1000 100 0)
    (mkTaskList 100 10 0) (mkBoard 10 1) (by rfl) (by rfl) (by rfl)

end TaskBoard
